import Mathlib

/-!
# GJS context lifecycle: a shallow embedding of `gjs/context.cpp`

The definitions below transcribe the functions of `gjs/context.cpp` that manage
a `GjsContext`: the current-context slot, the registry of live contexts,
the two-phase teardown (`dispose` / `finalize`), the termination request and
the evaluation entry points.

Conventions of the embedding

* A C pointer is an `Option Ptr`; `none` is `NULL`.
* A function that can stop the process (`g_assert`, `g_error`, a store through
  a null pointer) returns `Except Fault _`.
* An output parameter `T *p` is an `Option T`: `none` when the caller passed
  `NULL`, `some v` when it points to a cell holding `v`; the function returns
  the cell as it is afterwards.
* Calls into the script engine, the object bridge and GLib that the
  properties below depend on are recorded, in order, in a trace. `gjs_debug`
  output, reference counts and thread identity are not modelled.
* Collaborators whose code is not in this file (`gjs_eval_with_scope`, the file
  system, the engine's constructors) are parameters.
-/

namespace Gjs

/-- Addresses of heap objects. -/
abbrev Ptr := Nat

/-- Ways in which the process stops instead of returning. -/
inductive Fault
  | assertion_failed
  | fatal_error
  | null_dereference
  deriving DecidableEq, Repr

/-- The well-known identifiers interned by every context
(`static const char *const_strings[]`). -/
def const_strings : List String :=
  ["constructor", "prototype", "length",
   "imports", "__parentModule__", "__init__", "searchPath",
   "__gjsKeepAlive", "__gjsPrivateNS",
   "gi", "versions", "overrides",
   "_init", "_instance_init", "_new_internal", "new",
   "message", "code", "stack", "fileName", "lineNumber", "name",
   "x", "y", "width", "height", "__modulePath__"]

/-- The size of the identifier table; the source asserts statically that
`G_N_ELEMENTS(const_strings) == GJS_STRING_LAST`. -/
def GJS_STRING_LAST : Nat := const_strings.length

/-- The fields of `struct _GjsContext` (the `GObject` header and the owner
thread are left out). -/
structure GjsContext where
  runtime : Option Ptr
  context : Option Ptr
  global : Option Ptr
  program_name : Option String
  search_path : Option (List String)
  destroying : Bool
  should_exit : Bool
  exit_code : Nat
  auto_gc_id : Nat
  const_strings : List (Option Ptr)
  deriving DecidableEq, Repr

/-- A freshly allocated instance: `g_object_new` hands out zero-filled
memory. -/
def GjsContext.zeroed : GjsContext :=
  { runtime := none, context := none, global := none, program_name := none,
    search_path := none, destroying := false, should_exit := false,
    exit_code := 0, auto_gc_id := 0,
    const_strings := List.replicate GJS_STRING_LAST none }

/-- The process-wide statics of `context.cpp`: `all_contexts` and
`current_context`. -/
structure Globals where
  all_contexts : List Ptr
  current_context : Option Ptr
  deriving DecidableEq, Repr

/-- The statics at process start. -/
def Globals.initial : Globals := { all_contexts := [], current_context := none }

/-- External calls recorded in the trace. `gjs_gc_if_needed` carries, next to
its argument, the `auto_gc_id` the context holds while the callee runs. -/
inductive Call
  | parent_dispose
  | JS_BeginRequest
  | JS_GC
  | JS_EndRequest
  | gjs_object_prepare_shutdown
  | g_source_remove (id : Nat)
  | JS_RemoveExtraGCRootsTracer
  | delete_root (root : Option Ptr)
  | JS_DestroyContext (cx : Ptr)
  | gjs_runtime_unref (rt : Ptr)
  | g_object_ref
  | g_object_unref
  | gjs_log_exception
  | gjs_gc_if_needed (cx : Option Ptr) (auto_gc_id : Nat)
  deriving DecidableEq, Repr

/-- One trace entry: the call, and what `_gjs_context_destroying` would answer
to the callee at that moment. -/
structure TraceEntry where
  call : Call
  destroying : Bool
  deriving DecidableEq, Repr

/-- The calls made so far, oldest first. -/
abbrev Trace := List TraceEntry

/-! ## Current-context slot -/

/-- Reads the slot. -/
def gjs_context_get_current (g : Globals) : Option Ptr :=
  g.current_context

/-- Asserts `context == NULL || current_context == NULL`, then stores
`context` in the slot. -/
def gjs_context_make_current (context : Option Ptr) (g : Globals) : Except Fault Globals :=
  if context = none ∨ g.current_context = none then
    .ok { g with current_context := context }
  else
    .error Fault.assertion_failed

/-- The instance initialiser: installs the new object as current. -/
def gjs_context_init (js_context : Ptr) (g : Globals) : Except Fault Globals :=
  gjs_context_make_current (some js_context) g

/-! ## Termination request -/

/-- Reads the `destroying` flag. -/
def _gjs_context_destroying (context : GjsContext) : Bool :=
  context.destroying

/-- Latches a termination request; asserts that none is latched already. The
`exit_code` parameter is a `uint8_t`. -/
def _gjs_context_exit (js_context : GjsContext) (exit_code : Nat) : Except Fault GjsContext :=
  if js_context.should_exit then
    .error Fault.assertion_failed
  else
    .ok { js_context with should_exit := true, exit_code := exit_code % 256 }

/-- Returns the flag and the `exit_code_p` cell as it is after the call. -/
def _gjs_context_should_exit (js_context : GjsContext) (exit_code_p : Option Nat) :
    Bool × Option Nat :=
  (js_context.should_exit,
   match exit_code_p with
   | none => none
   | some _ => some js_context.exit_code)

/-- Clears the termination request. -/
def context_reset_exit (js_context : GjsContext) : GjsContext :=
  { js_context with should_exit := false, exit_code := 0 }

/-! ## Evaluation -/

/-- The script value left in `retval`; only the distinction between an int32
and anything else is used by the entry point. -/
inductive JSValue
  | undefined
  | null
  | boolean (b : Bool)
  | int32 (n : Int)
  | double (bits : Nat)
  | string (s : String)
  | object (p : Ptr)
  deriving DecidableEq, Repr

/-- `JS::Value::isInt32`. -/
def JSValue.isInt32 : JSValue → Bool
  | .int32 _ => true
  | _ => false

/-- `JS::Value::toInt32`, meaningful on int32 values. -/
def JSValue.toInt32 : JSValue → Int
  | .int32 n => n
  | _ => 0

/-- Domain and code of a `GError`: the two codes of the `GJS_ERROR` domain, or
a code set by GIO. -/
inductive ErrorKind
  | GJS_ERROR_FAILED
  | GJS_ERROR_SYSTEM_EXIT
  | io (code : Int)
  deriving DecidableEq, Repr

/-- A `GError`. -/
structure GError where
  kind : ErrorKind
  message : String
  deriving DecidableEq, Repr

/-- GLib's `g_set_error` on a `GError **`: nothing happens for `NULL`, an empty
location receives the error, a location already holding an error keeps it. -/
def g_set_error (err : Option (Option GError)) (e : GError) : Option (Option GError) :=
  match err with
  | none => none
  | some none => some (some e)
  | some (some old) => some (some old)

/-- What `gjs_eval_with_scope` hands back: its boolean result, the value stored
in `retval`, and the context as the script left it (a script reaches the
context through `_gjs_context_exit`). -/
structure ScopeEval where
  ok : Bool
  retval : JSValue
  js : GjsContext
  deriving DecidableEq, Repr

/-- The collaborator `gjs_eval_with_scope(context, scope, script, script_len,
filename, &retval)`, a parameter of the embedding. -/
abbrev Evaluator := GjsContext → String → Int → String → Except Fault ScopeEval

/-- Everything `gjs_context_eval` leaves behind when it returns. -/
structure EvalResult where
  ret : Bool
  exit_status_p : Option Int
  error : Option (Option GError)
  js : GjsContext
  trace : Trace
  deriving DecidableEq, Repr

/-- A store `*p = v` through an `int *`. -/
def store_int (p : Option Int) (v : Int) : Except Fault (Option Int) :=
  match p with
  | none => .error Fault.null_dereference
  | some _ => .ok (some v)

/-- The `out:` label of `gjs_context_eval`: drop the temporary reference,
reset the termination request, return `ret`. -/
def gjs_context_eval_out (ret : Bool) (exit_status_p : Option Int)
    (error : Option (Option GError)) (js_context : GjsContext) (tr : Trace) : EvalResult :=
  { ret := ret, exit_status_p := exit_status_p, error := error,
    js := context_reset_exit js_context,
    trace := tr ++ [⟨Call.g_object_unref, js_context.destroying⟩] }

/-- Evaluates `script` on the context. On failure of the engine the two
branches store through `exit_status_p` without testing it; on success the
store is guarded by `if (exit_status_p)`. -/
def gjs_context_eval (gjs_eval_with_scope : Evaluator) (js_context : GjsContext)
    (script : String) (script_len : Int) (filename : String)
    (exit_status_p : Option Int) (error : Option (Option GError)) :
    Except Fault EvalResult :=
  let tr : Trace := [⟨Call.g_object_ref, js_context.destroying⟩]
  match gjs_eval_with_scope js_context script script_len filename with
  | .error f => .error f
  | .ok r =>
    let js := r.js
    if !r.ok then
      let code : Nat := ((_gjs_context_should_exit js (some 0)).2).getD 0
      if (_gjs_context_should_exit js (some 0)).1 then
        match store_int exit_status_p code with
        | .error f => .error f
        | .ok cell =>
          let error := g_set_error error
            ⟨ErrorKind.GJS_ERROR_SYSTEM_EXIT, "Exit with code " ++ toString code⟩
          .ok (gjs_context_eval_out false cell error js tr)
      else
        let tr := tr ++ [⟨Call.gjs_log_exception, js.destroying⟩]
        let error := g_set_error error
          ⟨ErrorKind.GJS_ERROR_FAILED, "JS_EvaluateScript() failed"⟩
        match store_int exit_status_p 1 with
        | .error f => .error f
        | .ok cell => .ok (gjs_context_eval_out false cell error js tr)
    else
      let cell : Option Int :=
        match exit_status_p with
        | none => none
        | some _ => if r.retval.isInt32 then some r.retval.toInt32 else some 0
      .ok (gjs_context_eval_out true cell error js tr)

/-- The GIO calls of `gjs_context_eval_file`, as parameters:
`g_file_query_exists` and `g_file_load_contents` (contents, or the error GIO
sets). -/
structure FileSystem where
  g_file_query_exists : String → Bool
  g_file_load_contents : String → Except GError String

/-- Loads `filename` and evaluates its contents. A missing file takes
`ret = false; goto out;` straight away; a failed load lets GIO set `error`. -/
def gjs_context_eval_file (fs : FileSystem) (gjs_eval_with_scope : Evaluator)
    (js_context : GjsContext) (filename : String)
    (exit_status_p : Option Int) (error : Option (Option GError)) :
    Except Fault EvalResult :=
  if !fs.g_file_query_exists filename then
    .ok { ret := false, exit_status_p := exit_status_p, error := error,
          js := js_context, trace := [] }
  else
    match fs.g_file_load_contents filename with
    | .error e =>
      .ok { ret := false, exit_status_p := exit_status_p, error := g_set_error error e,
            js := js_context, trace := [] }
    | .ok script =>
      gjs_context_eval gjs_eval_with_scope js_context script script.utf8ByteSize
        filename exit_status_p error

/-! ## Construction and teardown -/

/-- What the collaborators called by `gjs_context_constructed` return. -/
structure EngineSetup where
  gjs_runtime_ref : Ptr
  JS_NewContext : Option Ptr
  new_PersistentRootedId : Nat → Ptr
  gjs_create_global_object : Option Ptr
  gjs_create_root_importer : Option Ptr
  imports_slot_isUndefined : Bool
  gjs_define_global_properties : Bool

/-- GLib's `g_list_prepend`. -/
def g_list_prepend (list : List Ptr) (data : Ptr) : List Ptr :=
  data :: list

/-- GLib's `g_list_remove`: removes the first element holding `data`. -/
def g_list_remove (list : List Ptr) (data : Ptr) : List Ptr :=
  list.erase data

/-- GLib's `g_list_copy`. -/
def g_list_copy (list : List Ptr) : List Ptr :=
  list

/-- The `constructed` handler: takes a runtime reference, creates the
sub-context, interns the identifiers, creates and roots the global object,
creates the root importer, defines the global properties, and finally prepends
the object to `all_contexts`. `g_error` and `g_assert` stop the process. -/
def gjs_context_constructed (eng : EngineSetup) (object : Ptr) (js_context : GjsContext)
    (g : Globals) : Except Fault (GjsContext × Globals) :=
  let js := { js_context with runtime := some eng.gjs_runtime_ref }
  let js := { js with context := eng.JS_NewContext }
  if js.context = none then
    .error Fault.fatal_error
  else
    let js := { js with
      const_strings := (List.range GJS_STRING_LAST).map
        (fun i => some (eng.new_PersistentRootedId i)) }
    if eng.gjs_create_global_object = none then
      .error Fault.fatal_error
    else
      let js := { js with global := eng.gjs_create_global_object }
      if eng.gjs_create_root_importer = none then
        .error Fault.fatal_error
      else if !eng.imports_slot_isUndefined then
        .error Fault.assertion_failed
      else if !eng.gjs_define_global_properties then
        .error Fault.fatal_error
      else
        .ok (js, { g with all_contexts := g_list_prepend g.all_contexts object })

/-- A property id of the class together with the `GValue` passed to the
setter. -/
inductive PropertyValue
  | PROP_SEARCH_PATH (value : Option (List String))
  | PROP_PROGRAM_NAME (value : Option String)
  deriving DecidableEq, Repr

/-- The property setter of the class. -/
def gjs_context_set_property (js_context : GjsContext) : PropertyValue → GjsContext
  | .PROP_SEARCH_PATH value => { js_context with search_path := value }
  | .PROP_PROGRAM_NAME value => { js_context with program_name := value }

/-- What `g_object_new (GJS_TYPE_CONTEXT, "search-path", search_path, NULL)` runs
on the zero-filled instance at address `object`: the instance initialiser, the
setters of the two construct-only properties (`program-name` with its default
`""`), then `constructed`. -/
def gjs_context_new_with_search_path (eng : EngineSetup) (object : Ptr)
    (search_path : Option (List String)) (g : Globals) :
    Except Fault (GjsContext × Globals) :=
  match gjs_context_init object g with
  | .error f => .error f
  | .ok g =>
    let js := gjs_context_set_property GjsContext.zeroed (.PROP_SEARCH_PATH search_path)
    let js := gjs_context_set_property js (.PROP_PROGRAM_NAME (some ""))
    gjs_context_constructed eng object js g

/-- The call `g_object_new (GJS_TYPE_CONTEXT, NULL)`. -/
def gjs_context_new (eng : EngineSetup) (object : Ptr) (g : Globals) :
    Except Fault (GjsContext × Globals) :=
  gjs_context_new_with_search_path eng object none g

/-- Appends a call to the trace, with the `destroying` flag the callee can
observe. -/
def record (js_context : GjsContext) (tr : Trace) (c : Call) : Trace :=
  tr ++ [⟨c, js_context.destroying⟩]

/-- The `dispose` handler: chains up first, then, only while the sub-context
pointer is non-null, runs the teardown. -/
def gjs_context_dispose (js_context : GjsContext) (tr : Trace) : GjsContext × Trace :=
  let tr := record js_context tr Call.parent_dispose
  match js_context.context with
  | none => (js_context, tr)
  | some cx =>
    let tr := record js_context tr Call.JS_BeginRequest
    let tr := record js_context tr Call.JS_GC
    let tr := record js_context tr Call.JS_EndRequest
    let js := { js_context with destroying := true }
    let tr := record js tr Call.gjs_object_prepare_shutdown
    let (js, tr) :=
      if js.auto_gc_id > 0 then
        ({ js with auto_gc_id := 0 }, record js tr (Call.g_source_remove js.auto_gc_id))
      else (js, tr)
    let tr := record js tr Call.JS_RemoveExtraGCRootsTracer
    let js := { js with global := none }
    let tr := js.const_strings.foldl (fun t root => record js t (Call.delete_root root)) tr
    let tr := record js tr (Call.JS_DestroyContext cx)
    let js := { js with context := none }
    match js.runtime with
    | none => (js, tr)
    | some rt => ({ js with runtime := none }, record js tr (Call.gjs_runtime_unref rt))

/-- The calls that release engine and bridge resources: everything
`gjs_context_dispose` does inside its `context != NULL` branch. -/
def Call.is_teardown : Call → Bool
  | .JS_BeginRequest => true
  | .JS_GC => true
  | .JS_EndRequest => true
  | .gjs_object_prepare_shutdown => true
  | .g_source_remove _ => true
  | .JS_RemoveExtraGCRootsTracer => true
  | .delete_root _ => true
  | .JS_DestroyContext _ => true
  | .gjs_runtime_unref _ => true
  | .parent_dispose => false
  | .g_object_ref => false
  | .g_object_unref => false
  | .gjs_log_exception => false
  | .gjs_gc_if_needed _ _ => false

/-- The teardown calls of a trace, in order. -/
def teardown_calls (tr : Trace) : List Call :=
  (tr.map TraceEntry.call).filter Call.is_teardown

/-- The `finalize` handler: frees the search path and program name, clears the
slot if it holds `object`, removes `object` from `all_contexts`. -/
def gjs_context_finalize (object : Ptr) (js_context : GjsContext) (g : Globals) :
    Except Fault (GjsContext × Globals) :=
  let js := if js_context.search_path ≠ none then { js_context with search_path := none }
            else js_context
  let js := if js.program_name ≠ none then { js with program_name := none } else js
  let cleared : Except Fault Globals :=
    if gjs_context_get_current g = some object then gjs_context_make_current none g
    else .ok g
  match cleared with
  | .error f => .error f
  | .ok g => .ok (js, { g with all_contexts := g_list_remove g.all_contexts object })

/-- A copy of the registry (each element gets a reference). -/
def gjs_context_get_all (g : Globals) : List Ptr :=
  g_list_copy g.all_contexts

/-! ## Deferred collection -/

/-- The part of the GLib main loop the context deals with: the attached idle
sources whose callback is `trigger_gc_if_needed` on this context, oldest first,
and the last source id the loop has handed out. -/
structure MainLoop where
  idle_sources : List Nat
  last_id : Nat
  deriving DecidableEq, Repr

/-- GLib's `g_idle_add_full (G_PRIORITY_LOW, trigger_gc_if_needed, js_context,
NULL)`: attaches a source and returns its id, which is greater than 0 and not
in use. -/
def g_idle_add_full (loop : MainLoop) : Nat × MainLoop :=
  (loop.last_id + 1,
   { idle_sources := loop.idle_sources ++ [loop.last_id + 1], last_id := loop.last_id + 1 })

/-- GLib's `g_source_remove`. -/
def g_source_remove (loop : MainLoop) (id : Nat) : MainLoop :=
  { loop with idle_sources := loop.idle_sources.erase id }

/-- GLib's `G_SOURCE_REMOVE`, the callback result `FALSE` that detaches the
source. -/
def G_SOURCE_REMOVE : Bool := false

/-- The idle callback: clears the marker, runs the heuristic trigger, asks to
be detached. -/
def trigger_gc_if_needed (js_context : GjsContext) (tr : Trace) : Bool × GjsContext × Trace :=
  let js := { js_context with auto_gc_id := 0 }
  let tr := record js tr (Call.gjs_gc_if_needed js.context js.auto_gc_id)
  (G_SOURCE_REMOVE, js, tr)

/-- Schedules the idle callback unless the marker says one is pending. -/
def _gjs_context_schedule_gc_if_needed (js_context : GjsContext) (loop : MainLoop) :
    GjsContext × MainLoop :=
  if js_context.auto_gc_id > 0 then
    (js_context, loop)
  else
    ({ js_context with auto_gc_id := (g_idle_add_full loop).1 }, (g_idle_add_full loop).2)

/-- A context together with its main loop and the calls made so far. -/
structure IdleState where
  js : GjsContext
  loop : MainLoop
  trace : Trace
  deriving DecidableEq, Repr

/-- The main loop dispatching the attached idle source `id`: it runs the
callback and detaches the source unless the callback asked to stay. An id that
is not attached is not dispatched. -/
def dispatch_idle (s : IdleState) (id : Nat) : IdleState :=
  if id ∈ s.loop.idle_sources then
    { js := (trigger_gc_if_needed s.js s.trace).2.1,
      loop := if (trigger_gc_if_needed s.js s.trace).1 then s.loop
              else g_source_remove s.loop id,
      trace := (trigger_gc_if_needed s.js s.trace).2.2 }
  else s

/-- The source ids passed to `g_source_remove` in a trace, in order. -/
def removed_sources (tr : Trace) : List Nat :=
  tr.filterMap fun e =>
    match e.call with
    | Call.g_source_remove id => some id
    | _ => none

/-- What touches the marker and the idle sources: a schedule request, the main
loop dispatching source `id`, `gjs_context_dispose`, and other code attaching a
source of its own (which uses up an id). -/
inductive IdleOp
  | schedule
  | dispatch (id : Nat)
  | dispose
  | other_source
  deriving DecidableEq, Repr

/-- One step; `dispose` applies the `g_source_remove` calls it makes to the
loop. -/
def run_idle_op (s : IdleState) : IdleOp → IdleState
  | .schedule =>
    { s with js := (_gjs_context_schedule_gc_if_needed s.js s.loop).1,
             loop := (_gjs_context_schedule_gc_if_needed s.js s.loop).2 }
  | .dispatch id => dispatch_idle s id
  | .dispose =>
    { js := (gjs_context_dispose s.js []).1,
      loop := (removed_sources (gjs_context_dispose s.js []).2).foldl g_source_remove s.loop,
      trace := s.trace ++ (gjs_context_dispose s.js []).2 }
  | .other_source => { s with loop := { s.loop with last_id := s.loop.last_id + 1 } }

/-- Runs the steps in order. -/
def run_idle_ops (ops : List IdleOp) (s : IdleState) : IdleState :=
  ops.foldl run_idle_op s

/-- The number of heuristic collection passes in a trace. -/
def gc_passes (tr : Trace) : Nat :=
  tr.countP fun e =>
    match e.call with
    | Call.gjs_gc_if_needed _ _ => true
    | _ => false

/-- The marker agrees with the loop: no source is attached while
`auto_gc_id` is 0, and otherwise exactly the source `auto_gc_id`. -/
def marker_matches_sources (s : IdleState) : Prop :=
  s.loop.idle_sources = if s.js.auto_gc_id > 0 then [s.js.auto_gc_id] else []

/-! ## Memory counters -/

/-- The counter names of `GJS_FOR_EACH_COUNTER` in `gjs/mem-private.h`. -/
inductive CounterName
  | boxed_instance
  | boxed_prototype
  | closure
  | function
  | fundamental_instance
  | fundamental_prototype
  | gerror_instance
  | gerror_prototype
  | interface
  | module
  | ns
  | object_instance
  | object_prototype
  | param
  | union_instance
  | union_prototype
  deriving DecidableEq, Repr

/-- The expansion order of `GJS_FOR_EACH_COUNTER` (indices 0 to 15). -/
def GJS_FOR_EACH_COUNTER : List CounterName :=
  [.boxed_instance, .boxed_prototype, .closure, .function, .fundamental_instance,
   .fundamental_prototype, .gerror_instance, .gerror_prototype, .interface, .module, .ns,
   .object_instance, .object_prototype, .param, .union_instance, .union_prototype]

/-- The value an `int64_t` holds after a computation whose exact result is
`x`: two's-complement wrap-around, as `std::atomic_int64_t` arithmetic does. -/
def wrap_int64 (x : Int) : Int :=
  (x + 2 ^ 63) % 2 ^ 64 - 2 ^ 63

/-- The `value` fields of the counters declared in `Gjs::Memory::Counters`:
`everything` and one per name. -/
structure Memory.Counters where
  everything : Int
  value : CounterName → Int

/-- All counters at their initial value `ATOMIC_VAR_INIT(0)`. -/
def Memory.Counters.initial : Memory.Counters :=
  { everything := 0, value := fun _ => 0 }

/-- The template `inc<counter>`: `everything.value++; counter->value++;`. -/
def Memory.Counters.inc (counter : CounterName) (s : Memory.Counters) : Memory.Counters :=
  let s := { s with everything := wrap_int64 (s.everything + 1) }
  { s with value := Function.update s.value counter (wrap_int64 (s.value counter + 1)) }

/-- The template `dec<counter>`: `counter->value--; everything.value--;`. -/
def Memory.Counters.dec (counter : CounterName) (s : Memory.Counters) : Memory.Counters :=
  let s := { s with value := Function.update s.value counter (wrap_int64 (s.value counter - 1)) }
  { s with everything := wrap_int64 (s.everything - 1) }

/-- One use of `GJS_INC_COUNTER(name)` or `GJS_DEC_COUNTER(name)`. -/
inductive CounterOp
  | inc (counter : CounterName)
  | dec (counter : CounterName)
  deriving DecidableEq, Repr

/-- Applies one operation. -/
def run_counter_op (s : Memory.Counters) : CounterOp → Memory.Counters
  | .inc counter => Memory.Counters.inc counter s
  | .dec counter => Memory.Counters.dec counter s

/-- Applies the operations in order, one completing before the next starts. -/
def run_counter_ops (ops : List CounterOp) (s : Memory.Counters) : Memory.Counters :=
  ops.foldl run_counter_op s

/-- The exact sum of the 16 per-category counters. -/
def category_sum (s : Memory.Counters) : Int :=
  (GJS_FOR_EACH_COUNTER.map s.value).sum

/-- Counters that `n` operations can have produced from zero: every counter
lies between `-n` and `n`, and `everything` is the exact sum. -/
def counters_within (n : Nat) (s : Memory.Counters) : Prop :=
  (-(n : Int) ≤ s.everything ∧ s.everything ≤ n) ∧
  (∀ c, -(n : Int) ≤ s.value c ∧ s.value c ≤ n) ∧
  s.everything = category_sum s

/-! ## Sequences of calls -/

/-- The arguments of one `gjs_context_eval` call, with the behaviour of the
engine on its script. -/
structure EvalCall where
  evaluator : Evaluator
  script : String
  script_len : Int
  filename : String
  exit_status_p : Option Int
  error : Option (Option GError)

/-- Runs the calls one after the other on the same context. -/
def eval_calls : List EvalCall → GjsContext → Except Fault GjsContext
  | [], js => .ok js
  | c :: cs, js =>
    match gjs_context_eval c.evaluator js c.script c.script_len c.filename
        c.exit_status_p c.error with
    | .error f => .error f
    | .ok r => eval_calls cs r.js

/-- A step of the host program that touches the statics: creating a context
at address `object` (`gjs_context_new`), dropping the last reference to the
context at `object` whose fields are `js_context` (`dispose`, then `finalize`),
or a direct `gjs_context_make_current` call. -/
inductive RegistryOp
  | construct (eng : EngineSetup) (object : Ptr)
  | destroy (object : Ptr) (js_context : GjsContext)
  | make_current (context : Option Ptr)

/-- One step on the statics. -/
def run_op (g : Globals) : RegistryOp → Except Fault Globals
  | .construct eng object =>
    match gjs_context_new eng object g with
    | .error f => .error f
    | .ok (_, g) => .ok g
  | .destroy object js_context =>
    match gjs_context_finalize object (gjs_context_dispose js_context []).1 g with
    | .error f => .error f
    | .ok (_, g) => .ok g
  | .make_current context => gjs_context_make_current context g

/-- Runs the steps in order, stopping at the first one that stops the
process. -/
def run_ops : List RegistryOp → Globals → Except Fault Globals
  | [], g => .ok g
  | op :: ops, g =>
    match run_op g op with
    | .error f => .error f
    | .ok g => run_ops ops g

/-- The contexts alive after `ops`, earliest-constructed first, starting from
the contexts `live`: a construction adds its object at the end, a destruction
takes its object out. -/
def construction_order (live : List Ptr) : List RegistryOp → List Ptr
  | [] => live
  | .construct _ object :: ops => construction_order (live ++ [object]) ops
  | .destroy object _ :: ops => construction_order (live.filter (fun c => c ≠ object)) ops
  | .make_current _ :: ops => construction_order live ops

/-- The allocator never hands out the address of a context that is still
alive. -/
def addresses_fresh (live : List Ptr) : List RegistryOp → Prop
  | [] => True
  | .construct _ object :: ops => object ∉ live ∧ addresses_fresh (live ++ [object]) ops
  | .destroy object _ :: ops => addresses_fresh (live.filter (fun c => c ≠ object)) ops
  | .make_current _ :: ops => addresses_fresh live ops

/-! ## Concrete inputs -/

/-- An engine whose constructors all succeed. -/
def sample_engine : EngineSetup :=
  { gjs_runtime_ref := 100, JS_NewContext := some 200,
    new_PersistentRootedId := fun i => 300 + i,
    gjs_create_global_object := some 400, gjs_create_root_importer := some 500,
    imports_slot_isUndefined := true, gjs_define_global_properties := true }

/-- The context at address 1 as `constructed` leaves it, built with no search
path. -/
def sample_context : GjsContext :=
  { runtime := some 100, context := some 200, global := some 400,
    program_name := some "", search_path := none, destroying := false,
    should_exit := false, exit_code := 0, auto_gc_id := 0,
    const_strings := (List.range 27).map (fun i => some (300 + i)) }

/-- The sample context on a main loop whose last id was 4, after a schedule
request, the dispatch of source 5, an unrelated attachment and another
request: source 7 is pending and one pass has run. -/
def sample_idle_state : IdleState :=
  { js := { sample_context with auto_gc_id := 7 },
    loop := { idle_sources := [7], last_id := 7 },
    trace := [⟨Call.gjs_gc_if_needed (some 200) 0, false⟩] }

/-- A file system on which no path exists. -/
def empty_file_system : FileSystem :=
  { g_file_query_exists := fun _ => false,
    g_file_load_contents := fun _ => .error ⟨ErrorKind.io 1, "No such file or directory"⟩ }

/-- A file system on which every path exists and no file can be read. -/
def unreadable_file_system : FileSystem :=
  { g_file_query_exists := fun _ => true,
    g_file_load_contents := fun _ => .error ⟨ErrorKind.io 14, "Permission denied"⟩ }

/-- A script run that completes with value `v`. -/
def script_returning (v : JSValue) : Evaluator :=
  fun js _ _ _ => .ok ⟨true, v, js⟩

/-- A script run that ends in an uncaught exception. -/
def script_throwing : Evaluator :=
  fun js _ _ _ => .ok ⟨false, JSValue.undefined, js⟩

/-- A script run that calls `_gjs_context_exit (js_context, code)`, after which
evaluation fails. -/
def script_exiting (code : Nat) : Evaluator :=
  fun js _ _ _ =>
    match _gjs_context_exit js code with
    | .error f => .error f
    | .ok js1 => .ok ⟨false, JSValue.undefined, js1⟩


/-! ## Lemmas on the evaluation entry point -/

/-- The sample context is what `gjs_context_new` builds at address 1 on the
initial statics with the sample engine. -/
theorem sample_context_constructed :
    gjs_context_new sample_engine 1 Globals.initial =
      .ok (sample_context, { all_contexts := [1], current_context := some 1 }) :=
  rfl

/-- When the engine reports success, `gjs_context_eval` returns through `out:`
with `ret = true`. -/
theorem eval_of_ok (E : Evaluator) (js js1 : GjsContext) (script : String) (len : Int)
    (filename : String) (p : Option Int) (error : Option (Option GError)) (v : JSValue)
    (hrun : E js script len filename = .ok ⟨true, v, js1⟩) :
    gjs_context_eval E js script len filename p error =
      .ok (gjs_context_eval_out true
        (match p with
         | none => none
         | some _ => if v.isInt32 then some v.toInt32 else some 0)
        error js1 [⟨Call.g_object_ref, js.destroying⟩]) := by
  simp [gjs_context_eval, hrun]

/-- When the engine reports failure and no termination was requested, the
exception is logged and the store `*exit_status_p = 1` is executed. -/
theorem eval_of_throw (E : Evaluator) (js js1 : GjsContext) (script : String) (len : Int)
    (filename : String) (p : Option Int) (error : Option (Option GError)) (v : JSValue)
    (hrun : E js script len filename = .ok ⟨false, v, js1⟩)
    (hexit : js1.should_exit = false) :
    gjs_context_eval E js script len filename p error =
      match store_int p 1 with
      | .error f => .error f
      | .ok cell => .ok (gjs_context_eval_out false cell
          (g_set_error error ⟨ErrorKind.GJS_ERROR_FAILED, "JS_EvaluateScript() failed"⟩) js1
          [⟨Call.g_object_ref, js.destroying⟩, ⟨Call.gjs_log_exception, js1.destroying⟩]) := by
  simp [gjs_context_eval, hrun, _gjs_context_should_exit, hexit]

/-- When the engine reports failure and a termination request is latched, the
store `*exit_status_p = code` is executed and nothing is logged. -/
theorem eval_of_exit (E : Evaluator) (js js1 : GjsContext) (script : String) (len : Int)
    (filename : String) (p : Option Int) (error : Option (Option GError)) (v : JSValue)
    (hrun : E js script len filename = .ok ⟨false, v, js1⟩)
    (hexit : js1.should_exit = true) :
    gjs_context_eval E js script len filename p error =
      match store_int p js1.exit_code with
      | .error f => .error f
      | .ok cell => .ok (gjs_context_eval_out false cell
          (g_set_error error ⟨ErrorKind.GJS_ERROR_SYSTEM_EXIT,
            "Exit with code " ++ toString js1.exit_code⟩) js1
          [⟨Call.g_object_ref, js.destroying⟩]) := by
  simp [gjs_context_eval, hrun, _gjs_context_should_exit, hexit]

/-- Whatever `gjs_context_eval` returns has gone through `context_reset_exit`. -/
theorem eval_ok_reset (E : Evaluator) (js : GjsContext) (script : String) (len : Int)
    (filename : String) (p : Option Int) (error : Option (Option GError)) (r : EvalResult)
    (h : gjs_context_eval E js script len filename p error = .ok r) :
    r.js.should_exit = false ∧ r.js.exit_code = 0 := by
  unfold gjs_context_eval at h
  cases hrun : E js script len filename with
  | error f => simp [hrun] at h
  | ok s =>
    simp only [hrun] at h
    split at h
    · split at h
      · split at h
        · simp at h
        · simp only [Except.ok.injEq] at h
          subst h
          simp [gjs_context_eval_out, context_reset_exit]
      · split at h
        · simp at h
        · simp only [Except.ok.injEq] at h
          subst h
          simp [gjs_context_eval_out, context_reset_exit]
    · simp only [Except.ok.injEq] at h
      subst h
      simp [gjs_context_eval_out, context_reset_exit]


/-- With an exit-status location supplied, `gjs_context_eval` returns whenever
the engine does. -/
theorem eval_returns (E : Evaluator) (js : GjsContext) (script : String) (len : Int)
    (filename : String) (v0 : Int) (error : Option (Option GError)) (s : ScopeEval)
    (hrun : E js script len filename = .ok s) :
    ∃ r, gjs_context_eval E js script len filename (some v0) error = .ok r := by
  obtain ⟨ok, v, js1⟩ := s
  cases ok with
  | true => exact ⟨_, eval_of_ok E js js1 script len filename (some v0) error v hrun⟩
  | false =>
    cases hx : js1.should_exit with
    | false =>
      exact ⟨_, by rw [eval_of_throw E js js1 script len filename (some v0) error v hrun hx]; rfl⟩
    | true =>
      exact ⟨_, by rw [eval_of_exit E js js1 script len filename (some v0) error v hrun hx]; rfl⟩

/-- The only errors `gjs_context_eval` stores when the script leaves no
termination request behind are of kind `GJS_ERROR_FAILED`. -/
theorem eval_error_without_request (E : Evaluator) (js : GjsContext) (script : String)
    (len : Int) (filename : String) (p : Option Int) (error : Option (Option GError))
    (s : ScopeEval) (r : EvalResult)
    (hrun : E js script len filename = .ok s) (hquiet : s.js.should_exit = false)
    (h : gjs_context_eval E js script len filename p error = .ok r) :
    r.error = error ∨
      r.error = g_set_error error ⟨ErrorKind.GJS_ERROR_FAILED, "JS_EvaluateScript() failed"⟩ := by
  obtain ⟨ok, v, js1⟩ := s
  cases ok with
  | true =>
    rw [eval_of_ok E js js1 script len filename p error v hrun] at h
    simp only [Except.ok.injEq] at h
    subst h
    exact Or.inl rfl
  | false =>
    rw [eval_of_throw E js js1 script len filename p error v hrun hquiet] at h
    cases p with
    | none => simp [store_int] at h
    | some v0 =>
      simp only [store_int, Except.ok.injEq] at h
      subst h
      exact Or.inr rfl

/-- The termination state stays reset along any run of `gjs_context_eval`
calls. -/
theorem eval_calls_reset (calls : List EvalCall) (js0 js : GjsContext)
    (h0 : js0.should_exit = false ∧ js0.exit_code = 0)
    (h : eval_calls calls js0 = .ok js) :
    js.should_exit = false ∧ js.exit_code = 0 := by
  induction calls generalizing js0 with
  | nil =>
    simp only [eval_calls, Except.ok.injEq] at h
    subst h
    exact h0
  | cons c cs ih =>
    simp only [eval_calls] at h
    cases hc : gjs_context_eval c.evaluator js0 c.script c.script_len c.filename
        c.exit_status_p c.error with
    | error f => simp [hc] at h
    | ok r =>
      simp only [hc] at h
      exact ih r.js (eval_ok_reset _ _ _ _ _ _ _ _ hc) h

/-! ## Claims on the evaluation entry point -/

/-- C1: with an exit-status location supplied, a script that completes with
the int32 `N` makes `gjs_context_eval` return true with exit status `N`; a
script that completes with any other value makes it return true with exit
status 0; a script that fails with no termination request latched makes it
return false with exit status 1, a `GJS_ERROR_FAILED` error stored through
`error`, and the exception logged. -/
theorem gjs_context_eval_exit_status (E : Evaluator) (js js1 : GjsContext) (script : String)
    (len : Int) (filename : String) (v0 : Int) (error : Option (Option GError)) :
    (∀ N : Int, E js script len filename = .ok ⟨true, JSValue.int32 N, js1⟩ →
      ∃ r, gjs_context_eval E js script len filename (some v0) error = .ok r ∧
        r.ret = true ∧ r.exit_status_p = some N ∧ r.error = error) ∧
    (∀ v : JSValue, v.isInt32 = false →
      E js script len filename = .ok ⟨true, v, js1⟩ →
      ∃ r, gjs_context_eval E js script len filename (some v0) error = .ok r ∧
        r.ret = true ∧ r.exit_status_p = some 0 ∧ r.error = error) ∧
    (∀ v : JSValue, js1.should_exit = false →
      E js script len filename = .ok ⟨false, v, js1⟩ →
      ∃ r, gjs_context_eval E js script len filename (some v0) error = .ok r ∧
        r.ret = false ∧ r.exit_status_p = some 1 ∧
        r.error = g_set_error error
          ⟨ErrorKind.GJS_ERROR_FAILED, "JS_EvaluateScript() failed"⟩ ∧
        r.trace.map TraceEntry.call =
          [Call.g_object_ref, Call.gjs_log_exception, Call.g_object_unref]) := by
  refine ⟨?_, ?_, ?_⟩
  · intro N hrun
    refine ⟨_, eval_of_ok E js js1 script len filename (some v0) error _ hrun, ?_⟩
    simp [gjs_context_eval_out, JSValue.isInt32, JSValue.toInt32]
  · intro v hv hrun
    refine ⟨_, eval_of_ok E js js1 script len filename (some v0) error _ hrun, ?_⟩
    simp [gjs_context_eval_out, hv]
  · intro v hx hrun
    refine ⟨_, by rw [eval_of_throw E js js1 script len filename (some v0) error v hrun hx]; rfl,
      ?_⟩
    simp [gjs_context_eval_out]

/-- C1 at concrete inputs: on the sample context, the script `40 + 2` evaluated
by the engine to the int32 42 gives status 42, a script returning a boolean
gives status 0, a throwing script gives false, status 1 and `GJS_ERROR_FAILED`. -/
theorem gjs_context_eval_exit_status_witness :
    (∃ r, gjs_context_eval (script_returning (JSValue.int32 42)) sample_context "40 + 2" 6
        "test.js" (some 0) (some none) = .ok r ∧
      r.ret = true ∧ r.exit_status_p = some 42 ∧ r.error = some none) ∧
    (∃ r, gjs_context_eval (script_returning (JSValue.boolean true)) sample_context "true" 4
        "test.js" (some 5) (some none) = .ok r ∧
      r.ret = true ∧ r.exit_status_p = some 0 ∧ r.error = some none) ∧
    (∃ r, gjs_context_eval script_throwing sample_context "throw 1" 7
        "test.js" (some 0) (some none) = .ok r ∧
      r.ret = false ∧ r.exit_status_p = some 1 ∧
      r.error = some (some ⟨ErrorKind.GJS_ERROR_FAILED, "JS_EvaluateScript() failed"⟩) ∧
      r.trace.map TraceEntry.call =
        [Call.g_object_ref, Call.gjs_log_exception, Call.g_object_unref]) :=
  ⟨(gjs_context_eval_exit_status (script_returning (JSValue.int32 42)) sample_context
      sample_context "40 + 2" 6 "test.js" 0 (some none)).1 42 rfl,
   (gjs_context_eval_exit_status (script_returning (JSValue.boolean true)) sample_context
      sample_context "true" 4 "test.js" 5 (some none)).2.1 (JSValue.boolean true) rfl rfl,
   (gjs_context_eval_exit_status script_throwing sample_context
      sample_context "throw 1" 7 "test.js" 0 (some none)).2.2 JSValue.undefined rfl rfl⟩

/-- C2: for an exit code `c` below 256, when the script run reaches
`_gjs_context_exit (js_context, c)` and evaluation then fails,
`gjs_context_eval` returns false, stores a `GJS_ERROR_SYSTEM_EXIT` error (a kind
other than `GJS_ERROR_FAILED`) through `error`, writes exactly `c` to the exit
status, and never calls `gjs_log_exception`. -/
theorem gjs_context_eval_system_exit (E : Evaluator) (js js0 js1 : GjsContext)
    (script : String) (len : Int) (filename : String) (v0 : Int)
    (error : Option (Option GError)) (c : Nat) (v : JSValue)
    (hc : c < 256)
    (hexit : _gjs_context_exit js0 c = .ok js1)
    (hrun : E js script len filename = .ok ⟨false, v, js1⟩) :
    ∃ r, gjs_context_eval E js script len filename (some v0) error = .ok r ∧
      r.ret = false ∧
      r.error = g_set_error error
        ⟨ErrorKind.GJS_ERROR_SYSTEM_EXIT, "Exit with code " ++ toString c⟩ ∧
      ErrorKind.GJS_ERROR_SYSTEM_EXIT ≠ ErrorKind.GJS_ERROR_FAILED ∧
      r.exit_status_p = some (c : Int) ∧
      (∀ e ∈ r.trace, e.call ≠ Call.gjs_log_exception) := by
  have hjs1 : js1.should_exit = true ∧ js1.exit_code = c := by
    unfold _gjs_context_exit at hexit
    split at hexit
    · simp at hexit
    · simp only [Except.ok.injEq] at hexit
      subst hexit
      exact ⟨rfl, Nat.mod_eq_of_lt hc⟩
  refine ⟨_, by rw [eval_of_exit E js js1 script len filename (some v0) error v hrun hjs1.1]; rfl,
    ?_⟩
  simp [gjs_context_eval_out, hjs1.2]

/-- C2 at a concrete input: a script calling the termination primitive with
code 7 on the sample context. -/
theorem gjs_context_eval_system_exit_witness :
    ∃ r, gjs_context_eval (script_exiting 7) sample_context "imports.system.exit(7)" 22
        "test.js" (some 0) (some none) = .ok r ∧
      r.ret = false ∧
      r.error = some (some ⟨ErrorKind.GJS_ERROR_SYSTEM_EXIT, "Exit with code 7"⟩) ∧
      ErrorKind.GJS_ERROR_SYSTEM_EXIT ≠ ErrorKind.GJS_ERROR_FAILED ∧
      r.exit_status_p = some 7 ∧
      (∀ e ∈ r.trace, e.call ≠ Call.gjs_log_exception) :=
  gjs_context_eval_system_exit (script_exiting 7) sample_context sample_context
    { sample_context with should_exit := true, exit_code := 7 }
    "imports.system.exit(7)" 22 "test.js" 0 (some none) 7 JSValue.undefined
    (by decide) rfl rfl


/-- C3: every `gjs_context_eval` call that returns leaves `should_exit = false`
and `exit_code = 0`, and with an exit-status location supplied the call returns
for each outcome of the script (success, uncaught exception, termination
request); a following evaluation whose script leaves the flag as it found it
stores no `GJS_ERROR_SYSTEM_EXIT` error (it leaves `error` alone or stores
`GJS_ERROR_FAILED`); and the reset state holds after any run of evaluations
started from a context in the reset state. -/
theorem gjs_context_eval_resets_exit :
    (∀ (E : Evaluator) (js : GjsContext) (script : String) (len : Int) (filename : String)
        (p : Option Int) (error : Option (Option GError)) (r : EvalResult),
      gjs_context_eval E js script len filename p error = .ok r →
      r.js.should_exit = false ∧ r.js.exit_code = 0) ∧
    (∀ (E : Evaluator) (js : GjsContext) (script : String) (len : Int) (filename : String)
        (v0 : Int) (error : Option (Option GError)) (s : ScopeEval),
      E js script len filename = .ok s →
      ∃ r, gjs_context_eval E js script len filename (some v0) error = .ok r) ∧
    (∀ (E1 E2 : Evaluator) (js : GjsContext) (script1 script2 : String) (len1 len2 : Int)
        (filename1 filename2 : String) (p1 p2 : Option Int)
        (error1 error2 : Option (Option GError)) (r1 r2 : EvalResult) (s2 : ScopeEval),
      gjs_context_eval E1 js script1 len1 filename1 p1 error1 = .ok r1 →
      E2 r1.js script2 len2 filename2 = .ok s2 →
      s2.js.should_exit = r1.js.should_exit →
      gjs_context_eval E2 r1.js script2 len2 filename2 p2 error2 = .ok r2 →
      r2.error = error2 ∨
        r2.error = g_set_error error2
          ⟨ErrorKind.GJS_ERROR_FAILED, "JS_EvaluateScript() failed"⟩) ∧
    (∀ (calls : List EvalCall) (js0 js : GjsContext),
      js0.should_exit = false ∧ js0.exit_code = 0 →
      eval_calls calls js0 = .ok js →
      js.should_exit = false ∧ js.exit_code = 0) := by
  refine ⟨?_, ?_, ?_, ?_⟩
  · intro E js script len filename p error r h
    exact eval_ok_reset E js script len filename p error r h
  · intro E js script len filename v0 error s hrun
    exact eval_returns E js script len filename v0 error s hrun
  · intro E1 E2 js script1 script2 len1 len2 filename1 filename2 p1 p2 error1 error2 r1 r2 s2
      h1 hrun hsame h2
    have hreset := eval_ok_reset E1 js script1 len1 filename1 p1 error1 r1 h1
    exact eval_error_without_request E2 r1.js script2 len2 filename2 p2 error2 s2 r2 hrun
      (hsame.trans hreset.1) h2
  · intro calls js0 js h0 h
    exact eval_calls_reset calls js0 js h0 h

/-- C3 at concrete inputs: the sample context is in the reset state after a
script exits with code 7 on it; the call with a throwing script returns; a
throwing script evaluated after the exiting one stores `GJS_ERROR_FAILED`; and
the state is reset after an exiting and a returning script run in sequence. -/
theorem gjs_context_eval_resets_exit_witness :
    (sample_context.should_exit = false ∧ sample_context.exit_code = 0) ∧
    (∃ r, gjs_context_eval script_throwing sample_context "throw 1" 7 "test.js" (some 0)
        (some none) = .ok r) ∧
    ((some (some ⟨ErrorKind.GJS_ERROR_FAILED, "JS_EvaluateScript() failed"⟩) :
        Option (Option GError)) = some none ∨
      (some (some ⟨ErrorKind.GJS_ERROR_FAILED, "JS_EvaluateScript() failed"⟩) :
        Option (Option GError)) =
        g_set_error (some none) ⟨ErrorKind.GJS_ERROR_FAILED, "JS_EvaluateScript() failed"⟩) ∧
    (sample_context.should_exit = false ∧ sample_context.exit_code = 0) :=
  ⟨gjs_context_eval_resets_exit.1 (script_exiting 7) sample_context "imports.system.exit(7)" 22
      "test.js" (some 0) (some none)
      ⟨false, some 7, some (some ⟨ErrorKind.GJS_ERROR_SYSTEM_EXIT, "Exit with code 7"⟩),
        sample_context, [⟨Call.g_object_ref, false⟩, ⟨Call.g_object_unref, false⟩]⟩ rfl,
   gjs_context_eval_resets_exit.2.1 script_throwing sample_context "throw 1" 7 "test.js" 0
      (some none) ⟨false, JSValue.undefined, sample_context⟩ rfl,
   gjs_context_eval_resets_exit.2.2.1 (script_exiting 7) script_throwing sample_context
      "imports.system.exit(7)" "throw 1" 22 7 "test.js" "test.js" (some 0) (some 0)
      (some none) (some none)
      ⟨false, some 7, some (some ⟨ErrorKind.GJS_ERROR_SYSTEM_EXIT, "Exit with code 7"⟩),
        sample_context, [⟨Call.g_object_ref, false⟩, ⟨Call.g_object_unref, false⟩]⟩
      ⟨false, some 1, some (some ⟨ErrorKind.GJS_ERROR_FAILED, "JS_EvaluateScript() failed"⟩),
        sample_context,
        [⟨Call.g_object_ref, false⟩, ⟨Call.gjs_log_exception, false⟩,
         ⟨Call.g_object_unref, false⟩]⟩
      ⟨false, JSValue.undefined, sample_context⟩ rfl rfl rfl rfl,
   gjs_context_eval_resets_exit.2.2.2
      [⟨script_exiting 7, "imports.system.exit(7)", 22, "test.js", some 0, some none⟩,
       ⟨script_returning (JSValue.int32 42), "40 + 2", 6, "test.js", some 0, some none⟩]
      sample_context sample_context ⟨rfl, rfl⟩ rfl⟩


/-! ## Teardown -/

/-- After `gjs_context_dispose` the sub-context pointer is null. -/
theorem dispose_context_none (js : GjsContext) (tr : Trace) :
    (gjs_context_dispose js tr).1.context = none := by
  unfold gjs_context_dispose
  cases hcx : js.context with
  | none => simpa using hcx
  | some cx =>
    simp only
    split <;> split <;> simp_all

/-- On a context whose sub-context pointer is null, `gjs_context_dispose` only
chains up to the parent class. -/
theorem dispose_of_context_none (js : GjsContext) (tr : Trace) (h : js.context = none) :
    gjs_context_dispose js tr = (js, tr ++ [⟨Call.parent_dispose, js.destroying⟩]) := by
  simp [gjs_context_dispose, h, record]

/-- C4: running `gjs_context_dispose` a second time leaves every field of the
context as the first run left it and adds to the trace nothing but the
chain-up to the parent class's dispose; the calls of the teardown proper
(forced GC, prepare-shutdown, timer removal, tracer removal, identifier
release, context destruction, runtime unref) are those of the first run. -/
theorem gjs_context_dispose_idempotent (js : GjsContext) (tr : Trace) :
    gjs_context_dispose (gjs_context_dispose js tr).1 (gjs_context_dispose js tr).2 =
      ((gjs_context_dispose js tr).1,
       (gjs_context_dispose js tr).2 ++
         [⟨Call.parent_dispose, (gjs_context_dispose js tr).1.destroying⟩]) ∧
    teardown_calls
        (gjs_context_dispose (gjs_context_dispose js tr).1 (gjs_context_dispose js tr).2).2 =
      teardown_calls (gjs_context_dispose js tr).2 := by
  have h := dispose_of_context_none (gjs_context_dispose js tr).1 (gjs_context_dispose js tr).2
    (dispose_context_none js tr)
  refine ⟨h, ?_⟩
  rw [h]
  simp [teardown_calls, Call.is_teardown]


/-! ## Current-context slot -/

/-- What `gjs_context_finalize` does to the statics: it always returns, with
the object erased from the registry and the slot emptied if it held the
object. -/
theorem finalize_globals (object : Ptr) (js : GjsContext) (g : Globals) :
    ∃ js1, gjs_context_finalize object js g =
      .ok (js1, { all_contexts := g_list_remove g.all_contexts object,
                  current_context :=
                    if g.current_context = some object then none else g.current_context }) := by
  have key : (gjs_context_finalize object js g).map Prod.snd =
      .ok { all_contexts := g_list_remove g.all_contexts object,
            current_context :=
              if g.current_context = some object then none else g.current_context } := by
    unfold gjs_context_finalize
    by_cases h : g.current_context = some object
    · simp [gjs_context_get_current, gjs_context_make_current, h, Except.map]
    · simp [gjs_context_get_current, h, Except.map]
  cases hf : gjs_context_finalize object js g with
  | error f => simp [hf, Except.map] at key
  | ok r =>
    obtain ⟨js1, g1⟩ := r
    simp only [hf, Except.map, Except.ok.injEq] at key
    exact ⟨js1, by rw [← key]⟩

/-- C5: `gjs_context_make_current (c)` with `c` non-null returns exactly when
the slot is empty, and then `gjs_context_get_current` answers `c` and the
registry is untouched; when the slot holds any context `d` (`d = c` included)
the assertion fails, so no state with a replaced slot results. The instance
initialiser is this very call, so `gjs_context_new` fails the same assertion
when the slot is occupied. -/
theorem gjs_context_make_current_single (c : Ptr) (g : Globals) :
    (g.current_context = none →
      gjs_context_make_current (some c) g = .ok { g with current_context := some c } ∧
      gjs_context_get_current { g with current_context := some c } = some c) ∧
    (∀ d : Ptr, g.current_context = some d →
      gjs_context_make_current (some c) g = .error Fault.assertion_failed) ∧
    (∀ g1 : Globals, gjs_context_make_current (some c) g = .ok g1 →
      g.current_context = none ∧ gjs_context_get_current g1 = some c) ∧
    gjs_context_init c g = gjs_context_make_current (some c) g ∧
    (∀ (d : Ptr) (eng : EngineSetup), g.current_context = some d →
      gjs_context_new eng c g = .error Fault.assertion_failed) := by
  refine ⟨?_, ?_, ?_, rfl, ?_⟩
  · intro h
    simp [gjs_context_make_current, h, gjs_context_get_current]
  · intro d h
    simp [gjs_context_make_current, h]
  · intro g1 h
    unfold gjs_context_make_current at h
    split at h
    · rename_i hc
      simp only [Except.ok.injEq] at h
      subst h
      simpa [gjs_context_get_current] using hc
    · simp at h
  · intro d eng h
    simp [gjs_context_new, gjs_context_new_with_search_path, gjs_context_init,
      gjs_context_make_current, h]

/-- C5 at concrete inputs: context 1 becomes current on the initial statics;
with context 1 current, making context 2 or context 1 current fails, and so
does creating a context at address 2. -/
theorem gjs_context_make_current_single_witness :
    (gjs_context_make_current (some 1) Globals.initial = .ok ⟨[], some 1⟩ ∧
      gjs_context_get_current ⟨[], some 1⟩ = some 1) ∧
    gjs_context_make_current (some 2) ⟨[1], some 1⟩ = .error Fault.assertion_failed ∧
    gjs_context_make_current (some 1) ⟨[1], some 1⟩ = .error Fault.assertion_failed ∧
    ((Globals.initial).current_context = none ∧
      gjs_context_get_current ⟨[], some 1⟩ = some 1) ∧
    gjs_context_new sample_engine 2 ⟨[1], some 1⟩ = .error Fault.assertion_failed :=
  ⟨(gjs_context_make_current_single 1 Globals.initial).1 rfl,
   (gjs_context_make_current_single 2 ⟨[1], some 1⟩).2.1 1 rfl,
   (gjs_context_make_current_single 1 ⟨[1], some 1⟩).2.1 1 rfl,
   (gjs_context_make_current_single 1 Globals.initial).2.2.1 ⟨[], some 1⟩ rfl,
   (gjs_context_make_current_single 2 ⟨[1], some 1⟩).2.2.2.2 1 sample_engine rfl⟩

/-- C6, as stated, fails: a clear request on an empty slot, and one on a slot
holding context 2, both pass the assertion and return. -/
theorem gjs_context_make_current_null_counterexample :
    gjs_context_make_current none Globals.initial = .ok Globals.initial ∧
    gjs_context_make_current none Globals.initial ≠ .error Fault.assertion_failed ∧
    gjs_context_make_current none ⟨[1, 2], some 2⟩ = .ok ⟨[1, 2], none⟩ ∧
    gjs_context_make_current none ⟨[1, 2], some 2⟩ ≠ .error Fault.assertion_failed := by
  refine ⟨rfl, ?_, rfl, ?_⟩ <;> simp [gjs_context_make_current]

/-- C6, amended: a clear request `gjs_context_make_current (NULL)` always
passes the assertion and empties the slot, whatever the slot held; the check
that the slot holds the caller is made by `gjs_context_finalize`, which returns
with the slot emptied when it held the finalized context and unchanged
otherwise. -/
theorem gjs_context_make_current_null (g : Globals) (object : Ptr) (js : GjsContext) :
    gjs_context_make_current none g = .ok { g with current_context := none } ∧
    ∃ js1 g1, gjs_context_finalize object js g = .ok (js1, g1) ∧
      g1.current_context =
        if g.current_context = some object then none else g.current_context := by
  refine ⟨by simp [gjs_context_make_current], ?_⟩
  obtain ⟨js1, h⟩ := finalize_globals object js g
  exact ⟨js1, _, h, rfl⟩


/-! ## Registry -/

/-- Erasing from a duplicate-free registry is the same as filtering. -/
theorem g_list_remove_eq_filter (l : List Ptr) (object : Ptr) (h : l.Nodup) :
    g_list_remove l object = l.filter (fun c => c ≠ object) := by
  unfold g_list_remove
  rw [List.Nodup.erase_eq_filter h]
  congr 1
  funext c
  by_cases hc : c = object <;> simp [hc]

/-- A successful `gjs_context_new` puts the new object at the head of the
registry and in the slot. -/
theorem new_globals (eng : EngineSetup) (object : Ptr) (g g1 : Globals) (js1 : GjsContext)
    (h : gjs_context_new eng object g = .ok (js1, g1)) :
    g1 = { all_contexts := object :: g.all_contexts, current_context := some object } := by
  unfold gjs_context_new gjs_context_new_with_search_path gjs_context_init
    gjs_context_make_current at h
  split at h
  · simp at h
  · rename_i g2 hg2
    split at hg2
    · simp only [Except.ok.injEq] at hg2
      subst hg2
      unfold gjs_context_constructed at h
      simp only at h
      repeat' split at h
      all_goals first
        | (simp at h; done)
        | (simp only [Except.ok.injEq, Prod.mk.injEq] at h
           rw [← h.2]
           simp [g_list_prepend])
    · simp at hg2

/-- C7: on a registry without duplicates, disposing and finalizing the context
at `object` returns, after which `gjs_context_get_all` no longer lists
`object`, lists every other context it listed before in the same order, and
the slot is empty if it held `object` and unchanged otherwise. -/
theorem gjs_context_finalize_unregisters (object : Ptr) (js : GjsContext) (tr : Trace)
    (g : Globals) (hnodup : g.all_contexts.Nodup) :
    ∃ js1 g1, gjs_context_finalize object (gjs_context_dispose js tr).1 g = .ok (js1, g1) ∧
      object ∉ gjs_context_get_all g1 ∧
      gjs_context_get_all g1 = (gjs_context_get_all g).filter (fun c => c ≠ object) ∧
      gjs_context_get_current g1 =
        if gjs_context_get_current g = some object then none
        else gjs_context_get_current g := by
  obtain ⟨js1, h⟩ := finalize_globals object (gjs_context_dispose js tr).1 g
  refine ⟨js1, _, h, ?_, ?_, rfl⟩
  · simp only [gjs_context_get_all, g_list_copy, g_list_remove]
    exact List.Nodup.not_mem_erase hnodup
  · simp only [gjs_context_get_all, g_list_copy]
    exact g_list_remove_eq_filter _ _ hnodup

/-- C7 at a concrete input: with contexts 3, 2, 1 registered and 2 current,
destroying context 2 leaves 3, 1 and an empty slot. -/
theorem gjs_context_finalize_unregisters_witness :
    ∃ js1 g1, gjs_context_finalize 2 (gjs_context_dispose sample_context []).1
        ⟨[3, 2, 1], some 2⟩ = .ok (js1, g1) ∧
      2 ∉ gjs_context_get_all g1 ∧
      gjs_context_get_all g1 =
        (gjs_context_get_all ⟨[3, 2, 1], some 2⟩).filter (fun c => c ≠ 2) ∧
      gjs_context_get_current g1 =
        if gjs_context_get_current ⟨[3, 2, 1], some 2⟩ = some 2 then none
        else gjs_context_get_current ⟨[3, 2, 1], some 2⟩ :=
  gjs_context_finalize_unregisters 2 sample_context [] ⟨[3, 2, 1], some 2⟩ (by decide)

/-- The registry is the reverse of the construction order, without duplicates,
along any run. -/
theorem run_ops_registry (ops : List RegistryOp) (live : List Ptr) (g0 g : Globals)
    (hlive : g0.all_contexts = live.reverse) (hnd : live.Nodup)
    (hfresh : addresses_fresh live ops) (hrun : run_ops ops g0 = .ok g) :
    g.all_contexts = (construction_order live ops).reverse ∧
      (construction_order live ops).Nodup := by
  induction ops generalizing live g0 with
  | nil =>
    simp only [run_ops, Except.ok.injEq] at hrun
    subst hrun
    exact ⟨hlive, hnd⟩
  | cons op ops ih =>
    simp only [run_ops] at hrun
    cases hop : run_op g0 op with
    | error f => simp [hop] at hrun
    | ok g1 =>
      simp only [hop] at hrun
      cases op with
      | construct eng object =>
        simp only [addresses_fresh] at hfresh
        simp only [construction_order]
        refine ih (live ++ [object]) g1 ?_ ?_ hfresh.2 hrun
        · simp only [run_op] at hop
          cases hnew : gjs_context_new eng object g0 with
          | error f => simp [hnew] at hop
          | ok r =>
            obtain ⟨js1, g2⟩ := r
            simp only [hnew, Except.ok.injEq] at hop
            subst hop
            rw [new_globals eng object g0 g2 js1 hnew]
            simp [hlive]
        · refine List.nodup_append.mpr ⟨hnd, List.nodup_singleton object, ?_⟩
          intro a ha hb
          rw [List.mem_singleton] at hb
          exact hfresh.1 (hb ▸ ha)
      | destroy object js =>
        simp only [addresses_fresh] at hfresh
        simp only [construction_order]
        refine ih (live.filter (fun c => c ≠ object)) g1 ?_ (hnd.filter _) hfresh hrun
        simp only [run_op] at hop
        obtain ⟨js1, hfin⟩ := finalize_globals object (gjs_context_dispose js []).1 g0
        simp only [hfin, Except.ok.injEq] at hop
        subst hop
        simp only
        rw [g_list_remove_eq_filter _ _ (by rw [hlive]; exact List.nodup_reverse.mpr hnd), hlive,
          List.filter_reverse]
      | make_current context =>
        simp only [addresses_fresh] at hfresh
        simp only [construction_order]
        refine ih live g1 ?_ hnd hfresh hrun
        simp only [run_op, gjs_context_make_current] at hop
        split at hop
        · simp only [Except.ok.injEq] at hop
          subst hop
          exact hlive
        · simp at hop


/-- C8, as stated, fails: after constructing context 1, clearing the slot and
constructing context 2, `gjs_context_get_all` lists 2 before 1, while the
construction order is 1 before 2. -/
theorem gjs_context_get_all_order_counterexample :
    addresses_fresh []
      [.construct sample_engine 1, .make_current none, .construct sample_engine 2] ∧
    run_ops [.construct sample_engine 1, .make_current none, .construct sample_engine 2]
      Globals.initial = .ok ⟨[2, 1], some 2⟩ ∧
    gjs_context_get_all ⟨[2, 1], some 2⟩ = [2, 1] ∧
    construction_order []
      [.construct sample_engine 1, .make_current none, .construct sample_engine 2] = [1, 2] ∧
    gjs_context_get_all ⟨[2, 1], some 2⟩ ≠
      construction_order []
        [.construct sample_engine 1, .make_current none, .construct sample_engine 2] := by
  refine ⟨by simp [addresses_fresh], rfl, rfl, rfl, by decide⟩

/-- C8, amended: after any run of constructions, destructions and
`gjs_context_make_current` calls that returns, started from the initial statics
with the allocator handing out fresh addresses, `gjs_context_get_all` lists
exactly the live contexts, each once, in the reverse of the order of their
construction (latest-constructed first). -/
theorem gjs_context_get_all_reverse_order (ops : List RegistryOp) (g : Globals)
    (hfresh : addresses_fresh [] ops) (hrun : run_ops ops Globals.initial = .ok g) :
    gjs_context_get_all g = (construction_order [] ops).reverse ∧
    (gjs_context_get_all g).Nodup ∧
    (∀ c, c ∈ gjs_context_get_all g ↔ c ∈ construction_order [] ops) := by
  have h := run_ops_registry ops [] Globals.initial g rfl List.nodup_nil hfresh hrun
  have hall : gjs_context_get_all g = (construction_order [] ops).reverse := h.1
  refine ⟨hall, ?_, ?_⟩
  · rw [hall]
    exact List.nodup_reverse.mpr h.2
  · intro c
    rw [hall, List.mem_reverse]

/-- C8, amended, at a concrete input: contexts 1, 2 constructed, 1 destroyed,
3 constructed; the registry lists 3 then 2. -/
theorem gjs_context_get_all_reverse_order_witness :
    gjs_context_get_all ⟨[3, 2], some 3⟩ = [2, 3].reverse ∧
    (gjs_context_get_all ⟨[3, 2], some 3⟩).Nodup ∧
    (∀ c, c ∈ gjs_context_get_all ⟨[3, 2], some 3⟩ ↔ c ∈ [2, 3]) :=
  gjs_context_get_all_reverse_order
    [.construct sample_engine 1, .make_current none, .construct sample_engine 2,
     .destroy 1 sample_context, .make_current none, .construct sample_engine 3]
    ⟨[3, 2], some 3⟩ (by simp [addresses_fresh]) rfl

/-! ## Defects of the evaluation entry points -/

/-- When the file does not exist, `gjs_context_eval_file` returns false and
leaves `error`, the exit status, the context and the trace as they were. -/
theorem eval_file_missing (fs : FileSystem) (E : Evaluator) (js : GjsContext)
    (filename : String) (p : Option Int) (error : Option (Option GError))
    (h : fs.g_file_query_exists filename = false) :
    gjs_context_eval_file fs E js filename p error =
      .ok { ret := false, exit_status_p := p, error := error, js := js, trace := [] } := by
  simp [gjs_context_eval_file, h]

/-- Without an exit-status location, a failing script makes
`gjs_context_eval` store through the null pointer. -/
theorem eval_null_status_fails (E : Evaluator) (js js1 : GjsContext) (script : String)
    (len : Int) (filename : String) (error : Option (Option GError)) (v : JSValue)
    (hrun : E js script len filename = .ok ⟨false, v, js1⟩) :
    gjs_context_eval E js script len filename none error = .error Fault.null_dereference := by
  cases hx : js1.should_exit with
  | false => rw [eval_of_throw E js js1 script len filename none error v hrun hx]; rfl
  | true => rw [eval_of_exit E js js1 script len filename none error v hrun hx]; rfl

/-- C9: on a file system where the path does not exist,
`gjs_context_eval_file` returns false without running the script and without
storing any error: the caller's empty error location is still empty. When the
file exists but cannot be read, the error GIO reports is stored. -/
theorem gjs_context_eval_file_missing_sets_no_error :
    gjs_context_eval_file empty_file_system (script_returning (JSValue.int32 42))
        sample_context "/nonexistent.js" (some 0) (some none) =
      .ok { ret := false, exit_status_p := some 0, error := some none,
            js := sample_context, trace := [] } ∧
    gjs_context_eval_file unreadable_file_system (script_returning (JSValue.int32 42))
        sample_context "/root/secret.js" (some 0) (some none) =
      .ok { ret := false, exit_status_p := some 0,
            error := some (some ⟨ErrorKind.io 14, "Permission denied"⟩),
            js := sample_context, trace := [] } :=
  ⟨eval_file_missing _ _ _ _ _ _ rfl, rfl⟩

/-- C10: called with a null `exit_status_p`, `gjs_context_eval` stores through
the null pointer when the script throws and when it requests termination; with
a script that completes, the same call returns true and writes nothing. -/
theorem gjs_context_eval_null_exit_status :
    gjs_context_eval script_throwing sample_context "throw 1" 7 "test.js" none (some none) =
      .error Fault.null_dereference ∧
    gjs_context_eval (script_exiting 7) sample_context "imports.system.exit(7)" 22 "test.js"
        none (some none) = .error Fault.null_dereference ∧
    gjs_context_eval (script_returning (JSValue.int32 42)) sample_context "40 + 2" 6 "test.js"
        none (some none) =
      .ok { ret := true, exit_status_p := none, error := some none, js := sample_context,
            trace := [⟨Call.g_object_ref, false⟩, ⟨Call.g_object_unref, false⟩] } :=
  ⟨eval_null_status_fails _ _ _ _ _ _ _ _ rfl, eval_null_status_fails _ _ _ _ _ _ _ _ rfl, rfl⟩


/-! ## Order of the teardown -/

/-- Releasing the identifier roots appends one `delete_root` call per slot, in
slot order. -/
theorem delete_roots_trace (d : Bool) (roots : List (Option Ptr)) (tr : Trace) :
    roots.foldl (fun t root => t ++ [⟨Call.delete_root root, d⟩]) tr =
      tr ++ roots.map (fun root => ⟨Call.delete_root root, d⟩) := by
  induction roots generalizing tr with
  | nil => simp
  | cons r rs ih =>
    rw [List.foldl_cons, ih]
    simp

/-- C13: on a context whose sub-context and runtime pointers are set and whose
`destroying` flag is still false, `gjs_context_dispose` makes these calls, in
this order and nothing else: the parent class's dispose, the forced GC inside
its request (all three observing `destroying = false`), then, all observing
`destroying = true`, prepare-shutdown, the removal of the idle source if
`auto_gc_id > 0`, the tracer removal, one release per identifier slot, the
destruction of the sub-context, the runtime unref. It leaves `destroying` set,
`auto_gc_id = 0` and the global, sub-context and runtime pointers null. -/
theorem gjs_context_dispose_order (js : GjsContext) (tr : Trace) (cx rt : Ptr)
    (hcx : js.context = some cx) (hrt : js.runtime = some rt)
    (hd : js.destroying = false) :
    (gjs_context_dispose js tr).2 =
      tr ++ [⟨Call.parent_dispose, false⟩, ⟨Call.JS_BeginRequest, false⟩,
             ⟨Call.JS_GC, false⟩, ⟨Call.JS_EndRequest, false⟩,
             ⟨Call.gjs_object_prepare_shutdown, true⟩]
        ++ (if js.auto_gc_id > 0 then [⟨Call.g_source_remove js.auto_gc_id, true⟩] else [])
        ++ [⟨Call.JS_RemoveExtraGCRootsTracer, true⟩]
        ++ js.const_strings.map (fun root => ⟨Call.delete_root root, true⟩)
        ++ [⟨Call.JS_DestroyContext cx, true⟩, ⟨Call.gjs_runtime_unref rt, true⟩] ∧
    (gjs_context_dispose js tr).1 =
      { js with destroying := true, auto_gc_id := 0, global := none, context := none,
                runtime := none } := by
  unfold gjs_context_dispose
  simp only [hcx]
  by_cases hgc : js.auto_gc_id > 0
  · simp [hgc, hrt, hd, record, delete_roots_trace]
  · have h0 : js.auto_gc_id = 0 := by omega
    simp [h0, hrt, hd, record, delete_roots_trace]

/-- C13 at a concrete input: the sample context with idle source 9 pending. -/
theorem gjs_context_dispose_order_witness :
    (gjs_context_dispose { sample_context with auto_gc_id := 9 } []).2 =
      [⟨Call.parent_dispose, false⟩, ⟨Call.JS_BeginRequest, false⟩,
       ⟨Call.JS_GC, false⟩, ⟨Call.JS_EndRequest, false⟩,
       ⟨Call.gjs_object_prepare_shutdown, true⟩,
       ⟨Call.g_source_remove 9, true⟩,
       ⟨Call.JS_RemoveExtraGCRootsTracer, true⟩]
        ++ (List.range 27).map (fun i => ⟨Call.delete_root (some (300 + i)), true⟩)
        ++ [⟨Call.JS_DestroyContext 200, true⟩, ⟨Call.gjs_runtime_unref 100, true⟩] ∧
    (gjs_context_dispose { sample_context with auto_gc_id := 9 } []).1 =
      { sample_context with destroying := true, auto_gc_id := 0, global := none,
                            context := none, runtime := none } :=
  gjs_context_dispose_order { sample_context with auto_gc_id := 9 } [] 200 100 rfl rfl rfl


/-! ## Deferred collection -/

/-- The `g_source_remove` calls of one `gjs_context_dispose` and the marker it
leaves: with a sub-context and a pending marker the marked source is removed
and the marker cleared; without a sub-context nothing is touched. -/
theorem dispose_removed_sources (js : GjsContext) :
    removed_sources (gjs_context_dispose js []).2 =
      (if js.context ≠ none ∧ js.auto_gc_id > 0 then [js.auto_gc_id] else []) ∧
    (gjs_context_dispose js []).1.auto_gc_id =
      (if js.context ≠ none then 0 else js.auto_gc_id) := by
  unfold gjs_context_dispose
  cases hcx : js.context with
  | none => simp [removed_sources, record]
  | some cx =>
    by_cases hgc : js.auto_gc_id > 0
    · cases hrt : js.runtime <;>
        simp [hgc, hrt, removed_sources, record, delete_roots_trace, List.filterMap_append,
          List.filterMap_map, Function.comp_def]
    · have h0 : js.auto_gc_id = 0 := by omega
      cases hrt : js.runtime <;>
        simp [h0, hrt, removed_sources, record, delete_roots_trace, List.filterMap_append,
          List.filterMap_map, Function.comp_def]

/-- `gjs_context_dispose` records no heuristic collection pass. -/
theorem dispose_gc_passes (js : GjsContext) :
    gc_passes (gjs_context_dispose js []).2 = 0 := by
  unfold gjs_context_dispose
  cases hcx : js.context with
  | none => simp [gc_passes, record]
  | some cx =>
    by_cases hgc : js.auto_gc_id > 0
    · cases hrt : js.runtime <;>
        simp [hgc, hrt, gc_passes, record, delete_roots_trace, List.countP_append,
          List.countP_map, Function.comp_def, List.countP_cons]
    · have h0 : js.auto_gc_id = 0 := by omega
      cases hrt : js.runtime <;>
        simp [h0, hrt, gc_passes, record, delete_roots_trace, List.countP_append,
          List.countP_map, Function.comp_def, List.countP_cons]

/-- Every step keeps the marker in agreement with the loop. -/
theorem run_idle_op_matches (s : IdleState) (op : IdleOp) (h : marker_matches_sources s) :
    marker_matches_sources (run_idle_op s op) := by
  unfold marker_matches_sources at h ⊢
  cases op with
  | schedule =>
    simp only [run_idle_op, _gjs_context_schedule_gc_if_needed, g_idle_add_full]
    by_cases hgc : s.js.auto_gc_id > 0
    · simpa [hgc] using h
    · simp [hgc] at h ⊢
      simp [h]
  | dispatch id =>
    simp only [run_idle_op, dispatch_idle]
    by_cases hid : id ∈ s.loop.idle_sources
    · by_cases hgc : s.js.auto_gc_id > 0
      · simp only [hgc, if_true] at h
        have : id = s.js.auto_gc_id := by simpa [h] using hid
        simp [hid, trigger_gc_if_needed, G_SOURCE_REMOVE, g_source_remove, h, this]
      · simp [hgc] at h
        simp [h] at hid
    · simpa [hid] using h
  | dispose =>
    simp only [run_idle_op]
    obtain ⟨hrem, hid⟩ := dispose_removed_sources s.js
    rw [hrem, hid]
    by_cases hcx : s.js.context = none
    · simpa [hcx] using h
    · by_cases hgc : s.js.auto_gc_id > 0
      · simp [hcx, hgc, g_source_remove, h]
      · simp [hcx, hgc] at h ⊢
        exact h
  | other_source =>
    simpa [run_idle_op] using h

/-- The agreement holds along any run. -/
theorem run_idle_ops_matches (ops : List IdleOp) (s : IdleState)
    (h : marker_matches_sources s) : marker_matches_sources (run_idle_ops ops s) := by
  induction ops generalizing s with
  | nil => exact h
  | cons op ops ih => exact ih (run_idle_op s op) (run_idle_op_matches s op h)


/-- Two schedule requests on a state whose marker agrees with the loop leave
exactly one source attached; dispatching it adds exactly one heuristic pass,
with the marker already cleared when the pass runs, and detaches the source. -/
theorem two_requests_one_pass (s : IdleState) (h : marker_matches_sources s) :
    ∃ id, (run_idle_ops [IdleOp.schedule, IdleOp.schedule] s).loop.idle_sources = [id] ∧
      (run_idle_ops [IdleOp.schedule, IdleOp.schedule, IdleOp.dispatch id] s).trace =
        s.trace ++ [⟨Call.gjs_gc_if_needed s.js.context 0, s.js.destroying⟩] ∧
      (run_idle_ops [IdleOp.schedule, IdleOp.schedule, IdleOp.dispatch id] s).loop.idle_sources
        = [] ∧
      (run_idle_ops [IdleOp.schedule, IdleOp.schedule, IdleOp.dispatch id] s).js.auto_gc_id
        = 0 := by
  unfold marker_matches_sources at h
  by_cases hgc : s.js.auto_gc_id > 0
  · simp only [hgc, if_true] at h
    refine ⟨s.js.auto_gc_id, ?_⟩
    simp [run_idle_ops, run_idle_op, _gjs_context_schedule_gc_if_needed, hgc, h, dispatch_idle,
      trigger_gc_if_needed, G_SOURCE_REMOVE, g_source_remove, record]
  · simp only [hgc, if_false] at h
    refine ⟨s.loop.last_id + 1, ?_⟩
    simp [run_idle_ops, run_idle_op, _gjs_context_schedule_gc_if_needed, hgc, h, dispatch_idle,
      trigger_gc_if_needed, G_SOURCE_REMOVE, g_source_remove, record, g_idle_add_full]

/-- C11: start from a context with no idle task pending (`auto_gc_id = 0`, no
source attached) and run any sequence of schedule requests, dispatches of
attached sources, disposals and unrelated source attachments. In the state `s`
reached: at most one idle source is attached, and it is the one named by
`auto_gc_id`; a schedule request while `auto_gc_id > 0` changes neither the
context nor the loop; two requests leave exactly one source attached, and
dispatching it adds exactly one `gjs_gc_if_needed` call to the trace and
detaches the source; the callback clears the marker before that call (the
callee finds `auto_gc_id = 0`) and returns `G_SOURCE_REMOVE`; and a request
made after the callback attaches a new source and marks it. -/
theorem schedule_gc_coalesces (ops : List IdleOp) (js : GjsContext) (loop : MainLoop)
    (tr : Trace) (s : IdleState)
    (hmarker : js.auto_gc_id = 0) (hloop : loop.idle_sources = [])
    (hs : s = run_idle_ops ops ⟨js, loop, tr⟩) :
    (s.loop.idle_sources.length ≤ 1 ∧ marker_matches_sources s) ∧
    (s.js.auto_gc_id > 0 →
      _gjs_context_schedule_gc_if_needed s.js s.loop = (s.js, s.loop)) ∧
    (∃ id, (run_idle_ops [IdleOp.schedule, IdleOp.schedule] s).loop.idle_sources = [id] ∧
      gc_passes (run_idle_ops [IdleOp.schedule, IdleOp.schedule, IdleOp.dispatch id] s).trace =
        gc_passes s.trace + 1 ∧
      (run_idle_ops [IdleOp.schedule, IdleOp.schedule, IdleOp.dispatch id] s).loop.idle_sources
        = []) ∧
    trigger_gc_if_needed s.js s.trace =
      (G_SOURCE_REMOVE, { s.js with auto_gc_id := 0 },
       s.trace ++ [⟨Call.gjs_gc_if_needed s.js.context 0, s.js.destroying⟩]) ∧
    (_gjs_context_schedule_gc_if_needed (trigger_gc_if_needed s.js s.trace).2.1 s.loop).1.auto_gc_id
        = s.loop.last_id + 1 ∧
    (_gjs_context_schedule_gc_if_needed (trigger_gc_if_needed s.js s.trace).2.1 s.loop).2
        = { idle_sources := s.loop.idle_sources ++ [s.loop.last_id + 1],
            last_id := s.loop.last_id + 1 } := by
  have hinit : marker_matches_sources ⟨js, loop, tr⟩ := by
    simp [marker_matches_sources, hmarker, hloop]
  have hinv : marker_matches_sources s := hs ▸ run_idle_ops_matches ops _ hinit
  refine ⟨⟨?_, hinv⟩, ?_, ?_, ?_, ?_, ?_⟩
  · unfold marker_matches_sources at hinv
    rw [hinv]
    split <;> simp
  · intro hgc
    simp [_gjs_context_schedule_gc_if_needed, hgc]
  · obtain ⟨id, h1, h2, h3, _⟩ := two_requests_one_pass s hinv
    refine ⟨id, h1, ?_, h3⟩
    rw [h2]
    simp [gc_passes, List.countP_append]
  · simp [trigger_gc_if_needed, record]
  · simp [trigger_gc_if_needed, _gjs_context_schedule_gc_if_needed, g_idle_add_full]
  · simp [trigger_gc_if_needed, _gjs_context_schedule_gc_if_needed, g_idle_add_full]

/-- C11 at a concrete input: the sample idle state is reached from the sample
context; it has one source attached, a further request changes nothing, and
after two requests the dispatch of the one attached source adds one pass and
leaves no source attached. -/
theorem schedule_gc_coalesces_witness :
    (sample_idle_state.loop.idle_sources.length ≤ 1 ∧
      marker_matches_sources sample_idle_state) ∧
    _gjs_context_schedule_gc_if_needed sample_idle_state.js sample_idle_state.loop =
      (sample_idle_state.js, sample_idle_state.loop) ∧
    (∃ id,
      (run_idle_ops [IdleOp.schedule, IdleOp.schedule] sample_idle_state).loop.idle_sources
        = [id] ∧
      gc_passes (run_idle_ops [IdleOp.schedule, IdleOp.schedule, IdleOp.dispatch id]
        sample_idle_state).trace = gc_passes sample_idle_state.trace + 1 ∧
      (run_idle_ops [IdleOp.schedule, IdleOp.schedule, IdleOp.dispatch id]
        sample_idle_state).loop.idle_sources = []) :=
  have h := schedule_gc_coalesces
    [IdleOp.schedule, IdleOp.dispatch 5, IdleOp.other_source, IdleOp.schedule]
    sample_context ⟨[], 4⟩ [] sample_idle_state rfl rfl rfl
  ⟨h.1, h.2.1 (by decide), h.2.2.1⟩


/-! ## Memory counters -/

/-- A value inside the `int64_t` range is stored unchanged. -/
theorem wrap_int64_of_range (x : Int) (h1 : -(2 : Int) ^ 63 ≤ x) (h2 : x < 2 ^ 63) :
    wrap_int64 x = x := by
  unfold wrap_int64
  omega

/-- Changing one category changes the sum by the difference. -/
theorem sum_update (v : CounterName → Int) (c : CounterName) (x : Int) :
    (GJS_FOR_EACH_COUNTER.map (Function.update v c x)).sum =
      (GJS_FOR_EACH_COUNTER.map v).sum - v c + x := by
  cases c <;> simp [GJS_FOR_EACH_COUNTER, Function.update] <;> omega

/-- One operation keeps `everything` equal to the sum taken in `int64_t`
arithmetic. -/
theorem run_counter_op_wrapped (s : Memory.Counters) (op : CounterOp)
    (h : s.everything = wrap_int64 (category_sum s)) :
    (run_counter_op s op).everything = wrap_int64 (category_sum (run_counter_op s op)) := by
  cases op with
  | inc c =>
    simp only [run_counter_op, Memory.Counters.inc, category_sum, sum_update]
    simp only [category_sum] at h
    rw [h]
    unfold wrap_int64
    omega
  | dec c =>
    simp only [run_counter_op, Memory.Counters.dec, category_sum, sum_update]
    simp only [category_sum] at h
    rw [h]
    unfold wrap_int64
    omega

/-- The same along a run. -/
theorem run_counter_ops_wrapped (ops : List CounterOp) (s : Memory.Counters)
    (h : s.everything = wrap_int64 (category_sum s)) :
    (run_counter_ops ops s).everything = wrap_int64 (category_sum (run_counter_ops ops s)) := by
  induction ops generalizing s with
  | nil => exact h
  | cons op ops ih => exact ih (run_counter_op s op) (run_counter_op_wrapped s op h)

/-- Below the overflow bound one operation changes every counter by at most
one and keeps `everything` the exact sum. -/
theorem run_counter_op_within (n : Nat) (s : Memory.Counters) (op : CounterOp)
    (hn : n + 1 < 2 ^ 63) (h : counters_within n s) :
    counters_within (n + 1) (run_counter_op s op) := by
  obtain ⟨hE, hv, hsum⟩ := h
  have hn' : ((n : Int) + 1) < 2 ^ 63 := by exact_mod_cast hn
  cases op with
  | inc c =>
    have hc := hv c
    have e1 : wrap_int64 (s.everything + 1) = s.everything + 1 :=
      wrap_int64_of_range _ (by omega) (by omega)
    have e2 : wrap_int64 (s.value c + 1) = s.value c + 1 :=
      wrap_int64_of_range _ (by omega) (by omega)
    refine ⟨?_, ?_, ?_⟩
    · simp only [run_counter_op, Memory.Counters.inc, e1]
      push_cast
      omega
    · intro d
      have hd := hv d
      simp only [run_counter_op, Memory.Counters.inc, e2]
      by_cases hdc : d = c
      · subst hdc
        simp only [Function.update_same]
        push_cast
        omega
      · simp only [Function.update_noteq hdc]
        push_cast
        omega
    · simp only [run_counter_op, Memory.Counters.inc, category_sum, sum_update, e1, e2]
      simp only [category_sum] at hsum
      omega
  | dec c =>
    have hc := hv c
    have e1 : wrap_int64 (s.everything - 1) = s.everything - 1 :=
      wrap_int64_of_range _ (by omega) (by omega)
    have e2 : wrap_int64 (s.value c - 1) = s.value c - 1 :=
      wrap_int64_of_range _ (by omega) (by omega)
    refine ⟨?_, ?_, ?_⟩
    · simp only [run_counter_op, Memory.Counters.dec, e1]
      push_cast
      omega
    · intro d
      have hd := hv d
      simp only [run_counter_op, Memory.Counters.dec, e2]
      by_cases hdc : d = c
      · subst hdc
        simp only [Function.update_same]
        push_cast
        omega
      · simp only [Function.update_noteq hdc]
        push_cast
        omega
    · simp only [run_counter_op, Memory.Counters.dec, category_sum, sum_update, e1, e2]
      simp only [category_sum] at hsum
      omega

/-- The same along a run that stays below the overflow bound. -/
theorem run_counter_ops_within (ops : List CounterOp) (n : Nat) (s : Memory.Counters)
    (hn : n + ops.length < 2 ^ 63) (h : counters_within n s) :
    counters_within (n + ops.length) (run_counter_ops ops s) := by
  induction ops generalizing n s with
  | nil => simpa [run_counter_ops] using h
  | cons op ops ih =>
    simp only [List.length_cons] at hn ⊢
    have hstep := run_counter_op_within n s op (by omega) h
    have := ih (n + 1) (run_counter_op s op) (by omega) hstep
    simpa [run_counter_ops, Nat.add_assoc, Nat.add_comm 1] using this

/-- C12: after any sequence of `inc` and `dec` operations run one after the
other from all-zero counters, `everything` equals the sum of the 16
per-category counters taken in `int64_t` arithmetic; while fewer than 2^63
operations have run, no counter has wrapped and `everything` equals the exact
sum; and then the next `inc<c>` adds 1 to `everything` and to `c`, the next
`dec<c>` subtracts 1 from both, and neither changes any other category. -/
theorem counters_everything_is_sum (ops : List CounterOp) :
    (run_counter_ops ops Memory.Counters.initial).everything =
      wrap_int64 (category_sum (run_counter_ops ops Memory.Counters.initial)) ∧
    (ops.length < 2 ^ 63 →
      (run_counter_ops ops Memory.Counters.initial).everything =
        category_sum (run_counter_ops ops Memory.Counters.initial)) ∧
    (ops.length + 1 < 2 ^ 63 → ∀ c : CounterName,
      ((run_counter_ops (ops ++ [CounterOp.inc c]) Memory.Counters.initial).everything =
          (run_counter_ops ops Memory.Counters.initial).everything + 1 ∧
        (run_counter_ops (ops ++ [CounterOp.inc c]) Memory.Counters.initial).value c =
          (run_counter_ops ops Memory.Counters.initial).value c + 1 ∧
        ∀ d, d ≠ c →
          (run_counter_ops (ops ++ [CounterOp.inc c]) Memory.Counters.initial).value d =
            (run_counter_ops ops Memory.Counters.initial).value d) ∧
      ((run_counter_ops (ops ++ [CounterOp.dec c]) Memory.Counters.initial).everything =
          (run_counter_ops ops Memory.Counters.initial).everything - 1 ∧
        (run_counter_ops (ops ++ [CounterOp.dec c]) Memory.Counters.initial).value c =
          (run_counter_ops ops Memory.Counters.initial).value c - 1 ∧
        ∀ d, d ≠ c →
          (run_counter_ops (ops ++ [CounterOp.dec c]) Memory.Counters.initial).value d =
            (run_counter_ops ops Memory.Counters.initial).value d)) := by
  have h0 : counters_within 0 Memory.Counters.initial := by
    refine ⟨by simp [Memory.Counters.initial], fun c => by simp [Memory.Counters.initial], ?_⟩
    simp [Memory.Counters.initial, category_sum, GJS_FOR_EACH_COUNTER]
  refine ⟨?_, ?_, ?_⟩
  · apply run_counter_ops_wrapped
    simp [Memory.Counters.initial, category_sum, GJS_FOR_EACH_COUNTER, wrap_int64]
  · intro hlen
    have := run_counter_ops_within ops 0 Memory.Counters.initial (by omega) h0
    exact this.2.2
  · intro hlen c
    obtain ⟨hE, hv, _⟩ := run_counter_ops_within ops 0 Memory.Counters.initial (by omega) h0
    have hc := hv c
    have hn : ((0 + ops.length : Nat) : Int) + 1 < 2 ^ 63 := by exact_mod_cast (by omega)
    have e1 := wrap_int64_of_range
      ((run_counter_ops ops Memory.Counters.initial).everything + 1) (by omega) (by omega)
    have e2 := wrap_int64_of_range
      ((run_counter_ops ops Memory.Counters.initial).value c + 1) (by omega) (by omega)
    have e3 := wrap_int64_of_range
      ((run_counter_ops ops Memory.Counters.initial).everything - 1) (by omega) (by omega)
    have e4 := wrap_int64_of_range
      ((run_counter_ops ops Memory.Counters.initial).value c - 1) (by omega) (by omega)
    refine ⟨⟨?_, ?_, ?_⟩, ⟨?_, ?_, ?_⟩⟩
    · simp [run_counter_ops, List.foldl_append, run_counter_op, Memory.Counters.inc] at e1 ⊢
      exact e1
    · simp [run_counter_ops, List.foldl_append, run_counter_op, Memory.Counters.inc] at e2 ⊢
      exact e2
    · intro d hd
      simp [run_counter_ops, List.foldl_append, run_counter_op, Memory.Counters.inc,
        Function.update_noteq hd]
    · simp [run_counter_ops, List.foldl_append, run_counter_op, Memory.Counters.dec] at e3 ⊢
      exact e3
    · simp [run_counter_ops, List.foldl_append, run_counter_op, Memory.Counters.dec] at e4 ⊢
      exact e4
    · intro d hd
      simp [run_counter_ops, List.foldl_append, run_counter_op, Memory.Counters.dec,
        Function.update_noteq hd]

/-- C12 at a concrete input: after `inc closure, inc function, dec closure,
inc ns` the aggregate is the exact sum, and a following `inc` or `dec` of
`closure` moves the aggregate and `closure` by one and leaves `ns` alone. -/
theorem counters_everything_is_sum_witness :
    ((run_counter_ops
        [CounterOp.inc CounterName.closure, CounterOp.inc CounterName.function,
         CounterOp.dec CounterName.closure, CounterOp.inc CounterName.ns]
        Memory.Counters.initial).everything =
      category_sum (run_counter_ops
        [CounterOp.inc CounterName.closure, CounterOp.inc CounterName.function,
         CounterOp.dec CounterName.closure, CounterOp.inc CounterName.ns]
        Memory.Counters.initial)) ∧
    ((run_counter_ops
        ([CounterOp.inc CounterName.closure, CounterOp.inc CounterName.function,
          CounterOp.dec CounterName.closure, CounterOp.inc CounterName.ns] ++
          [CounterOp.inc CounterName.closure])
        Memory.Counters.initial).everything =
      (run_counter_ops
        [CounterOp.inc CounterName.closure, CounterOp.inc CounterName.function,
         CounterOp.dec CounterName.closure, CounterOp.inc CounterName.ns]
        Memory.Counters.initial).everything + 1) ∧
    ((run_counter_ops
        ([CounterOp.inc CounterName.closure, CounterOp.inc CounterName.function,
          CounterOp.dec CounterName.closure, CounterOp.inc CounterName.ns] ++
          [CounterOp.dec CounterName.closure])
        Memory.Counters.initial).value CounterName.ns =
      (run_counter_ops
        [CounterOp.inc CounterName.closure, CounterOp.inc CounterName.function,
         CounterOp.dec CounterName.closure, CounterOp.inc CounterName.ns]
        Memory.Counters.initial).value CounterName.ns) :=
  ⟨(counters_everything_is_sum
      [CounterOp.inc CounterName.closure, CounterOp.inc CounterName.function,
       CounterOp.dec CounterName.closure, CounterOp.inc CounterName.ns]).2.1 (by simp),
   ((counters_everything_is_sum
      [CounterOp.inc CounterName.closure, CounterOp.inc CounterName.function,
       CounterOp.dec CounterName.closure, CounterOp.inc CounterName.ns]).2.2 (by simp)
      CounterName.closure).1.1,
   ((counters_everything_is_sum
      [CounterOp.inc CounterName.closure, CounterOp.inc CounterName.function,
       CounterOp.dec CounterName.closure, CounterOp.inc CounterName.ns]).2.2 (by simp)
      CounterName.closure).2.2.2 CounterName.ns (by decide)⟩

end Gjs
